import Mathlib

/-!
Shallow embedding of the thread-pool core of the `sysprog` repository
(`src/4/thread_pool.c`, `src/4/circular_queue.c`, `src/4/futex.c`),
together with theorems settling the specification claims about it.

Conventions:
* C `size_t` / index arithmetic is modelled with `Nat` (all index values
  involved stay far below `2^64`; the one place where `size_t` wrap-around
  could matter, `spawned_count - free_count` in `thread_pool_delete`, is
  modelled with an explicit `% 2^64`).
* `struct timespec` fields (`time_t`, `long`) are modelled with `Int`.
* Heap allocation is modelled as always succeeding: the C code `assert`s
  (aborts) on allocation failure, it never surfaces it to the caller.
* The circular queue's backing array is modelled as a total function
  `Nat → α`; slots that the C code leaves uninitialized hold `default`.
-/

namespace Sysprog

/-! ## Task states (`src/4/thread_pool.c`, `enum task_state`) -/

/-- The task state enumeration of `thread_pool.c`, in declaration order
(so `toNat` matches the C integer values `0..6`). -/
inductive task_state where
  | CREATED
  | PUSHED
  | PUSHED_GHOST
  | RUNNING
  | RUNNING_GHOST
  | COMPLETED
  | JOINED
deriving DecidableEq, Repr

/-- The C integer value of a `task_state` (enumerator order). -/
def task_state.toNat : task_state → Nat
  | .CREATED => 0
  | .PUSHED => 1
  | .PUSHED_GHOST => 2
  | .RUNNING => 3
  | .RUNNING_GHOST => 4
  | .COMPLETED => 5
  | .JOINED => 6

/-- `atomic_cex_state(task, old, new)`: compare-and-exchange on the state
word. Returns whether the exchange succeeded together with the state word
after the call. -/
def atomic_cex_state (s old nw : task_state) : Bool × task_state :=
  if s = old then (true, nw) else (false, s)

/-- Applies a sequence of `atomic_cex_state` attempts in order, stopping at
the first one that succeeds — the pattern every state-changing operation of
`thread_pool.c` uses (`a || b` / `if-else if` chains of CAS attempts). -/
def applyCasChain : List (task_state × task_state) → task_state → task_state
  | [], s => s
  | (old, nw) :: rest, s =>
    match atomic_cex_state s old nw with
    | (true, s') => s'
    | (false, _) => applyCasChain rest s

/-- The operations of the library that can change a task's state word, and
the CAS chain each one performs on it (in source order):
* `pushTask` — `thread_pool_push_task` lines 257/262 (push and repush),
* `workerPickup` — `thread_pool_worker` lines 161-162,
* `workerCompletion` — `thread_pool_worker` lines 132-134,
* `join` — `thread_task_join` line 363,
* `timedJoin` — `thread_task_timed_join` line 401,
* `detach` — `thread_task_detach` lines 420-424. -/
inductive LibOp where
  | pushTask
  | workerPickup
  | workerCompletion
  | join
  | timedJoin
  | detach
deriving DecidableEq, Repr

/-- The ordered CAS attempts each library operation performs on the task's
state word, transcribed from `thread_pool.c`. -/
def casChain : LibOp → List (task_state × task_state)
  | .pushTask => [(.CREATED, .PUSHED), (.JOINED, .PUSHED)]
  | .workerPickup => [(.PUSHED, .RUNNING), (.PUSHED_GHOST, .RUNNING_GHOST)]
  | .workerCompletion => [(.RUNNING, .COMPLETED), (.RUNNING_GHOST, .JOINED)]
  | .join => [(.COMPLETED, .JOINED)]
  | .timedJoin => [(.COMPLETED, .JOINED)]
  | .detach => [(.PUSHED, .PUSHED_GHOST), (.RUNNING, .RUNNING_GHOST), (.COMPLETED, .JOINED)]

/-- The effect of one library operation on the task's state word. -/
def applyOp (op : LibOp) (s : task_state) : task_state :=
  applyCasChain (casChain op) s

/-- The legal edges of the task-state DAG (including the `JOINED → PUSHED`
repush recycle edge). -/
def legalEdges : List (task_state × task_state) :=
  [(.CREATED, .PUSHED),
   (.PUSHED, .PUSHED_GHOST),
   (.PUSHED, .RUNNING),
   (.PUSHED_GHOST, .RUNNING_GHOST),
   (.RUNNING, .RUNNING_GHOST),
   (.RUNNING, .COMPLETED),
   (.RUNNING_GHOST, .JOINED),
   (.COMPLETED, .JOINED),
   (.JOINED, .PUSHED)]

/-- The sequence of state-word values a task goes through under a sequence
of library operations, starting from state `s` (the starting state
included). -/
def trajectory : List LibOp → task_state → List task_state
  | [], s => [s]
  | op :: rest, s => s :: trajectory rest (applyOp op s)

/-- A step of the state word is benign: it either leaves the state in place
or follows a legal DAG edge, moving forward in enumerator order except for
the sanctioned `JOINED → PUSHED` recycle. -/
def benignStep (a b : task_state) : Prop :=
  a = b ∨ ((a, b) ∈ legalEdges ∧
    ((a, b) = (task_state.JOINED, task_state.PUSHED) ∨ a.toNat < b.toNat))

theorem benignStep_applyOp (op : LibOp) (s : task_state) : benignStep s (applyOp op s) := by
  cases op <;> cases s <;> simp [benignStep, applyOp, casChain, applyCasChain,
    atomic_cex_state, legalEdges, task_state.toNat]

theorem trajectory_head (ops : List LibOp) (s : task_state) :
    (trajectory ops s).head? = some s := by
  cases ops <;> simp [trajectory]

/-- C1: every change of a task's state word performed by any library
operation follows a legal edge of the state DAG, and — apart from the
`JOINED → PUSHED` repush recycle — moves strictly forward in the DAG's
enumerator order; consequently, along any sequence of library operations
every consecutive pair of state-word values is a benign step. -/
theorem state_word_follows_dag :
    (∀ (op : LibOp) (s : task_state), applyOp op s ≠ s →
      (s, applyOp op s) ∈ legalEdges ∧
        ((s, applyOp op s) = (task_state.JOINED, task_state.PUSHED) ∨
          s.toNat < (applyOp op s).toNat)) ∧
    (∀ (ops : List LibOp) (s : task_state), (trajectory ops s).Chain' benignStep) := by
  constructor
  · intro op s hne
    rcases benignStep_applyOp op s with h | h
    · exact absurd h.symm hne
    · exact h
  · intro ops
    induction ops with
    | nil => intro s; simp [trajectory]
    | cons op rest ih =>
      intro s
      rw [trajectory, List.chain'_cons']
      refine ⟨?_, ih _⟩
      intro y hy
      rw [trajectory_head] at hy
      cases hy
      exact benignStep_applyOp op s

/-- Witness for C1 at a concrete changing step: pushing a `CREATED` task
changes the state word, the step `(CREATED, PUSHED)` is a legal DAG edge,
and it moves forward in enumerator order. -/
theorem state_word_follows_dag_witness :
    applyOp LibOp.pushTask task_state.CREATED ≠ task_state.CREATED ∧
    ((task_state.CREATED, applyOp LibOp.pushTask task_state.CREATED) ∈ legalEdges ∧
      ((task_state.CREATED, applyOp LibOp.pushTask task_state.CREATED) =
          (task_state.JOINED, task_state.PUSHED) ∨
        task_state.CREATED.toNat < (applyOp LibOp.pushTask task_state.CREATED).toNat)) :=
  ⟨by decide, state_word_follows_dag.1 .pushTask .CREATED (by decide)⟩

/-! ## Circular queue (`src/4/circular_queue.c`) -/

/-- `struct circular_queue`. The backing array `data` (of `dcapacity`
slots in C) is modelled as a total function; slots the C code never wrote
hold `default`. -/
structure circular_queue (α : Type) where
  dcapacity : Nat
  head : Nat
  tail : Nat
  data : Nat → α

/-- The `NEXT` macro: `(field + 1) % dcapacity`. -/
def cqNext (dcapacity i : Nat) : Nat := (i + 1) % dcapacity

/-- `circular_queue_realloc`: copy the live elements to the start of a
fresh array of `new_capacity` slots (the two `memcpy` branches), rewrite
`head`/`tail`, install the new capacity. Allocation is modelled as always
succeeding (the pool `assert`s on OOM). -/
def circular_queue_realloc (q : circular_queue α) [Inhabited α] (new_capacity : Nat) :
    circular_queue α :=
  if q.head ≤ q.tail then
    { dcapacity := new_capacity
      head := 0
      tail := q.tail - q.head
      data := fun i => if i < q.tail - q.head then q.data (q.head + i) else default }
  else
    { dcapacity := new_capacity
      head := 0
      tail := (q.dcapacity - q.head) + q.tail
      data := fun i =>
        if i < q.dcapacity - q.head then q.data (q.head + i)
        else if i < (q.dcapacity - q.head) + q.tail then q.data (i - (q.dcapacity - q.head))
        else default }

/-- `circular_queue_init`: zero the fields, then realloc to the default
initial capacity 8. -/
def circular_queue_init (α : Type) [Inhabited α] : circular_queue α :=
  circular_queue_realloc { dcapacity := 0, head := 0, tail := 0, data := fun _ => default } 8

/-- `circular_queue_pop`: read the slot at `head` and advance `head`. -/
def circular_queue_pop (q : circular_queue α) : α × circular_queue α :=
  (q.data q.head, { q with head := cqNext q.dcapacity q.head })

/-- `circular_queue_push`: grow by doubling when full
(`NEXT(tail) == head`), then store at `tail` and advance `tail`. -/
def circular_queue_push (q : circular_queue α) [Inhabited α] (val : α) : circular_queue α :=
  let q := if cqNext q.dcapacity q.tail = q.head then
    circular_queue_realloc q (q.dcapacity * 2) else q
  { q with data := fun i => if i = q.tail then val else q.data i
           tail := cqNext q.dcapacity q.tail }

/-- `circular_queue_capacity`: `dcapacity - 1` (one slot is reserved for
empty/full disambiguation). -/
def circular_queue_capacity (q : circular_queue α) : Nat := q.dcapacity - 1

/-- `circular_queue_size`. -/
def circular_queue_size (q : circular_queue α) : Nat :=
  if q.head ≤ q.tail then q.tail - q.head
  else q.dcapacity - q.head + q.tail

/-- Structural invariant of the circular queue: both indices are in
bounds and the capacity is at least the initial 8. -/
abbrev CQInv (q : circular_queue α) : Prop :=
  q.head < q.dcapacity ∧ q.tail < q.dcapacity ∧ 8 ≤ q.dcapacity

/-- Abstraction: the queue's contents, oldest first. -/
def cqList (q : circular_queue α) : List α :=
  (List.range (circular_queue_size q)).map (fun i => q.data ((q.head + i) % q.dcapacity))

theorem cqList_length (q : circular_queue α) :
    (cqList q).length = circular_queue_size q := by
  simp [cqList]

theorem size_lt_dcapacity (q : circular_queue α) (h : CQInv q) :
    circular_queue_size q < q.dcapacity := by
  obtain ⟨h1, h2, h3⟩ := h
  unfold circular_queue_size
  split <;> omega

theorem size_le_capacity (q : circular_queue α) (h : CQInv q) :
    circular_queue_size q ≤ circular_queue_capacity q := by
  have := size_lt_dcapacity q h
  unfold circular_queue_capacity
  omega

theorem mod_window {a n : Nat} (h1 : n ≤ a) (h2 : a < 2 * n) : a % n = a - n := by
  rw [Nat.mod_eq_sub_mod h1]
  exact Nat.mod_eq_of_lt (by omega)

theorem tail_eq_mod (q : circular_queue α) (h : CQInv q) :
    (q.head + circular_queue_size q) % q.dcapacity = q.tail := by
  obtain ⟨h1, h2, h3⟩ := h
  unfold circular_queue_size
  split
  · have : q.head + (q.tail - q.head) = q.tail := by omega
    rw [this]
    exact Nat.mod_eq_of_lt h2
  · have : q.head + (q.dcapacity - q.head + q.tail) = q.dcapacity + q.tail := by omega
    rw [this, Nat.add_mod_left]
    exact Nat.mod_eq_of_lt h2

theorem cq_index_ne_tail (q : circular_queue α) (h : CQInv q) {i : Nat}
    (hi : i < circular_queue_size q) : (q.head + i) % q.dcapacity ≠ q.tail := by
  obtain ⟨h1, h2, h3⟩ := h
  unfold circular_queue_size at hi
  by_cases hht : q.head ≤ q.tail
  · rw [if_pos hht] at hi
    rw [Nat.mod_eq_of_lt (a := q.head + i) (by omega)]
    omega
  · rw [if_neg hht] at hi
    by_cases hlt : q.head + i < q.dcapacity
    · rw [Nat.mod_eq_of_lt hlt]
      omega
    · rw [mod_window (by omega) (by omega)]
      omega

theorem realloc_spec (q : circular_queue α) [Inhabited α] (hq : CQInv q) {c : Nat}
    (hc : circular_queue_size q < c) :
    (circular_queue_realloc q c).dcapacity = c ∧
    (circular_queue_realloc q c).head = 0 ∧
    (circular_queue_realloc q c).tail = circular_queue_size q ∧
    cqList (circular_queue_realloc q c) = cqList q := by
  obtain ⟨h1, h2, h3⟩ := hq
  by_cases hht : q.head ≤ q.tail
  · have hsize : circular_queue_size q = q.tail - q.head := by
      simp [circular_queue_size, hht]
    rw [circular_queue_realloc, if_pos hht]
    refine ⟨rfl, rfl, hsize.symm, ?_⟩
    rw [hsize] at hc
    unfold cqList circular_queue_size
    simp only [Nat.zero_le, if_pos, Nat.sub_zero, Nat.zero_add, hsize]
    rw [if_pos hht]
    apply List.map_congr_left
    intro i hi
    rw [List.mem_range] at hi
    rw [Nat.mod_eq_of_lt (by omega : i < c), if_pos hi,
      Nat.mod_eq_of_lt (by omega : q.head + i < q.dcapacity)]
  · have hsize : circular_queue_size q = q.dcapacity - q.head + q.tail := by
      simp [circular_queue_size, hht]
    rw [circular_queue_realloc, if_neg hht]
    refine ⟨rfl, rfl, hsize.symm, ?_⟩
    rw [hsize] at hc
    unfold cqList circular_queue_size
    simp only [Nat.zero_le, if_pos, Nat.sub_zero, Nat.zero_add, hsize]
    rw [if_neg hht]
    apply List.map_congr_left
    intro i hi
    rw [List.mem_range] at hi
    rw [Nat.mod_eq_of_lt (by omega : i < c)]
    by_cases hfirst : i < q.dcapacity - q.head
    · rw [if_pos hfirst, Nat.mod_eq_of_lt (by omega : q.head + i < q.dcapacity)]
    · rw [if_neg hfirst, if_pos hi,
        mod_window (by omega : q.dcapacity ≤ q.head + i) (by omega)]
      congr 1
      omega

theorem push_eq_not_full (q : circular_queue α) [Inhabited α] (v : α)
    (hnf : cqNext q.dcapacity q.tail ≠ q.head) :
    circular_queue_push q v =
      { q with data := fun i => if i = q.tail then v else q.data i
               tail := cqNext q.dcapacity q.tail } := by
  unfold circular_queue_push
  rw [if_neg hnf]

theorem realloc_double_not_full (q : circular_queue α) [Inhabited α] (hq : CQInv q) :
    ¬ cqNext (circular_queue_realloc q (q.dcapacity * 2)).dcapacity
        (circular_queue_realloc q (q.dcapacity * 2)).tail =
      (circular_queue_realloc q (q.dcapacity * 2)).head := by
  have hlt := size_lt_dcapacity q hq
  obtain ⟨hdc, hh, ht, _⟩ := realloc_spec q hq (c := q.dcapacity * 2) (by omega)
  rw [hdc, hh, ht]
  unfold cqNext
  rw [Nat.mod_eq_of_lt (by omega)]
  omega

theorem push_eq_full (q : circular_queue α) [Inhabited α] (v : α) (hq : CQInv q)
    (hf : cqNext q.dcapacity q.tail = q.head) :
    circular_queue_push q v =
      circular_queue_push (circular_queue_realloc q (q.dcapacity * 2)) v := by
  conv_lhs => unfold circular_queue_push
  rw [if_pos hf]
  conv_rhs => unfold circular_queue_push
  rw [if_neg (realloc_double_not_full q hq)]

theorem push_not_full_spec (q : circular_queue α) [Inhabited α] (v : α) (hq : CQInv q)
    (hnf : cqNext q.dcapacity q.tail ≠ q.head) :
    cqList (circular_queue_push q v) = cqList q ++ [v] ∧
    CQInv (circular_queue_push q v) ∧
    (circular_queue_push q v).dcapacity = q.dcapacity := by
  obtain ⟨h1, h2, h3⟩ := hq
  rw [push_eq_not_full q v hnf]
  have hd0 : 0 < q.dcapacity := by omega
  have hsz : circular_queue_size
      { q with data := fun i => if i = q.tail then v else q.data i
               tail := cqNext q.dcapacity q.tail } = circular_queue_size q + 1 := by
    unfold circular_queue_size cqNext
    unfold cqNext at hnf
    by_cases hlt : q.tail + 1 < q.dcapacity
    · rw [Nat.mod_eq_of_lt hlt] at hnf ⊢
      simp only
      split <;> split <;> omega
    · have heq : q.tail + 1 = q.dcapacity := by omega
      have : (q.tail + 1) % q.dcapacity = 0 := by rw [heq, Nat.mod_self]
      rw [this] at hnf ⊢
      simp only
      split <;> split <;> omega
  refine ⟨?_, ⟨h1, by simpa using Nat.mod_lt _ hd0, h3⟩, rfl⟩
  unfold cqList
  rw [hsz]
  simp only [List.range_succ, List.map_append, List.map_cons, List.map_nil]
  congr 1
  · apply List.map_congr_left
    intro i hi
    rw [List.mem_range] at hi
    rw [if_neg (cq_index_ne_tail q ⟨h1, h2, h3⟩ hi)]
  · rw [tail_eq_mod q ⟨h1, h2, h3⟩, if_pos rfl]

theorem CQInv_realloc_double (q : circular_queue α) [Inhabited α] (hq : CQInv q) :
    CQInv (circular_queue_realloc q (q.dcapacity * 2)) := by
  have hlt := size_lt_dcapacity q hq
  obtain ⟨hdc, hh, ht, _⟩ := realloc_spec q hq (c := q.dcapacity * 2) (by omega)
  obtain ⟨h1, h2, h3⟩ := hq
  exact ⟨by omega, by omega, by omega⟩

theorem push_spec (q : circular_queue α) [Inhabited α] (v : α) (hq : CQInv q) :
    cqList (circular_queue_push q v) = cqList q ++ [v] ∧
    CQInv (circular_queue_push q v) := by
  by_cases hf : cqNext q.dcapacity q.tail = q.head
  · rw [push_eq_full q v hq hf]
    have hlt := size_lt_dcapacity q hq
    have hr := realloc_spec q hq (c := q.dcapacity * 2) (by omega)
    have hrinv := CQInv_realloc_double q hq
    obtain ⟨hl, hinv, _⟩ := push_not_full_spec (circular_queue_realloc q (q.dcapacity * 2)) v
      hrinv (realloc_double_not_full q hq)
    exact ⟨by rw [hl, hr.2.2.2], hinv⟩
  · obtain ⟨hl, hinv, _⟩ := push_not_full_spec q v hq hf
    exact ⟨hl, hinv⟩

theorem push_size (q : circular_queue α) [Inhabited α] (v : α) (hq : CQInv q) :
    circular_queue_size (circular_queue_push q v) = circular_queue_size q + 1 := by
  obtain ⟨hl, _⟩ := push_spec q v hq
  rw [← cqList_length, hl, List.length_append, cqList_length, List.length_singleton]

theorem pop_size (q : circular_queue α) (hq : CQInv q)
    (hne : 0 < circular_queue_size q) :
    circular_queue_size (circular_queue_pop q).2 = circular_queue_size q - 1 := by
  obtain ⟨h1, h2, h3⟩ := hq
  unfold circular_queue_pop cqNext circular_queue_size
  dsimp only
  unfold circular_queue_size at hne
  by_cases hlt : q.head + 1 < q.dcapacity
  · rw [Nat.mod_eq_of_lt hlt]
    split at hne <;> (split <;> omega)
  · have heq : q.head + 1 = q.dcapacity := by omega
    have hm : (q.head + 1) % q.dcapacity = 0 := by rw [heq, Nat.mod_self]
    rw [hm]
    split at hne <;> (split <;> omega)

theorem pop_spec (q : circular_queue α) [Inhabited α] (hq : CQInv q)
    (hne : 0 < circular_queue_size q) :
    cqList q = (circular_queue_pop q).1 :: cqList (circular_queue_pop q).2 ∧
    CQInv (circular_queue_pop q).2 := by
  have hsz := pop_size q hq hne
  obtain ⟨h1, h2, h3⟩ := hq
  constructor
  · unfold cqList
    rw [hsz]
    obtain ⟨n, hn⟩ : ∃ n, circular_queue_size q = n + 1 :=
      ⟨circular_queue_size q - 1, by omega⟩
    rw [hn]
    simp only [Nat.add_sub_cancel, List.range_succ_eq_map, List.map_cons, List.map_map]
    congr 1
    · rw [Nat.add_zero, Nat.mod_eq_of_lt h1]
      rfl
    · apply List.map_congr_left
      intro i hi
      show q.data ((q.head + Nat.succ i) % q.dcapacity) =
        q.data ((cqNext q.dcapacity q.head + i) % q.dcapacity)
      unfold cqNext
      rw [Nat.mod_add_mod]
      have harg : q.head + 1 + i = q.head + Nat.succ i := by omega
      rw [harg]
  · exact ⟨by
      show cqNext q.dcapacity q.head < q.dcapacity
      exact Nat.mod_lt _ (by omega), h2, h3⟩

/-! ## Queue operation sequences -/

/-- A client-visible circular-queue operation. -/
inductive CQOp (α : Type) where
  | push (v : α)
  | pop
deriving DecidableEq, Repr

/-- Runs a sequence of operations on a circular queue, collecting the
popped values in order. -/
def runCQ [Inhabited α] : List (CQOp α) → circular_queue α → circular_queue α × List α
  | [], q => (q, [])
  | .push v :: ops, q => runCQ ops (circular_queue_push q v)
  | .pop :: ops, q =>
    let p := circular_queue_pop q
    let r := runCQ ops p.2
    (r.1, p.1 :: r.2)

/-- The pure FIFO reference model: a list holding the queued elements,
oldest first. `pop` removes and returns the oldest element not yet popped. -/
def runModel [Inhabited α] : List (CQOp α) → List α → List α × List α
  | [], l => (l, [])
  | .push v :: ops, l => runModel ops (l ++ [v])
  | .pop :: ops, l =>
    let r := runModel ops l.tail
    (r.1, l.headD default :: r.2)

/-- A sequence of operations is valid for a queue currently holding `n`
elements when every `pop` happens on a nonempty queue. -/
def validOps : List (CQOp α) → Nat → Bool
  | [], _ => true
  | .push _ :: ops, n => validOps ops (n + 1)
  | .pop :: ops, n => decide (0 < n) && validOps ops (n - 1)

/-- Simulation: running a valid operation sequence on the circular queue
matches the pure FIFO model, preserves the structural invariant, and pops
the same values in the same order. -/
theorem runCQ_simulates [Inhabited α] (ops : List (CQOp α)) :
    ∀ (q : circular_queue α) (l : List α), CQInv q → cqList q = l →
      validOps ops l.length = true →
      (runCQ ops q).2 = (runModel ops l).2 ∧
      cqList (runCQ ops q).1 = (runModel ops l).1 ∧
      CQInv (runCQ ops q).1 := by
  induction ops with
  | nil => intro q l hq hl _; exact ⟨rfl, by simpa [runCQ, runModel], hq⟩
  | cons op ops ih =>
    intro q l hq hl hv
    cases op with
    | push v =>
      obtain ⟨hpl, hpi⟩ := push_spec q v hq
      have hv' : validOps ops (l ++ [v]).length = true := by
        simpa [validOps, List.length_append] using hv
      exact ih (circular_queue_push q v) (l ++ [v]) hpi (by rw [hpl, hl]) hv'
    | pop =>
      rw [validOps, Bool.and_eq_true, decide_eq_true_eq] at hv
      obtain ⟨hn, hv⟩ := hv
      have hqn : 0 < circular_queue_size q := by
        rw [← cqList_length, hl]; exact hn
      obtain ⟨hcons, hpi⟩ := pop_spec q hq hqn
      have hl' : cqList (circular_queue_pop q).2 = l.tail := by
        rw [← hl, hcons]; rfl
      have hlen : l.tail.length = l.length - 1 := by
        cases l <;> simp
      obtain ⟨hout, hfin, hinv⟩ := ih (circular_queue_pop q).2 l.tail hpi hl'
        (by rw [hlen]; exact hv)
      refine ⟨?_, hfin, hinv⟩
      show (circular_queue_pop q).1 :: (runCQ ops (circular_queue_pop q).2).2 =
        l.headD default :: (runModel ops l.tail).2
      rw [hout]
      congr 1
      rw [← hl, hcons]
      rfl

theorem cqList_init (α : Type) [Inhabited α] : cqList (circular_queue_init α) = [] := by
  simp [circular_queue_init, circular_queue_realloc, cqList, circular_queue_size]

theorem CQInv_init (α : Type) [Inhabited α] : CQInv (circular_queue_init α) := by
  refine ⟨?_, ?_, ?_⟩ <;> simp [circular_queue_init, circular_queue_realloc]

/-- C7: the circular queue is FIFO — running any sequence of pushes and
pops (each pop on a nonempty queue) from a fresh queue pops exactly the
values the pure FIFO model pops, in the same order, and leaves the same
contents; and a push onto a full queue (`NEXT(tail) == head`) doubles the
capacity and goes through a reallocation that rewrites `head` to 0 and
`tail` to the element count while preserving the stored elements and their
order, after which the push appends the new value. -/
theorem circular_queue_fifo_and_growth :
    (∀ ops : List (CQOp Nat), validOps ops 0 = true →
      (runCQ ops (circular_queue_init Nat)).2 = (runModel ops []).2 ∧
      cqList (runCQ ops (circular_queue_init Nat)).1 = (runModel ops []).1) ∧
    (∀ (q : circular_queue Nat) (v : Nat), CQInv q →
      cqNext q.dcapacity q.tail = q.head →
      (circular_queue_realloc q (q.dcapacity * 2)).dcapacity = q.dcapacity * 2 ∧
      (circular_queue_realloc q (q.dcapacity * 2)).head = 0 ∧
      (circular_queue_realloc q (q.dcapacity * 2)).tail = circular_queue_size q ∧
      cqList (circular_queue_realloc q (q.dcapacity * 2)) = cqList q ∧
      (circular_queue_push q v).dcapacity = q.dcapacity * 2 ∧
      cqList (circular_queue_push q v) = cqList q ++ [v]) := by
  constructor
  · intro ops hv
    obtain ⟨h1, h2, _⟩ := runCQ_simulates ops (circular_queue_init Nat) []
      (CQInv_init Nat) (cqList_init Nat) (by simpa using hv)
    exact ⟨h1, h2⟩
  · intro q v hq hf
    have hlt := size_lt_dcapacity q hq
    obtain ⟨hdc, hh, ht, hlst⟩ := realloc_spec q hq (c := q.dcapacity * 2) (by omega)
    refine ⟨hdc, hh, ht, hlst, ?_, (push_spec q v hq).1⟩
    rw [push_eq_full q v hq hf]
    obtain ⟨_, _, hcap⟩ := push_not_full_spec (circular_queue_realloc q (q.dcapacity * 2)) v
      (CQInv_realloc_double q hq) (realloc_double_not_full q hq)
    rw [hcap, hdc]

/-- Witness for C7 at concrete inputs: the operation sequence
`push 10, push 20, pop, push 30, pop` is valid and pops `10` then `20`,
and a concrete full queue (capacity 8, 7 elements) satisfies the
hypotheses of the growth statement. -/
theorem circular_queue_fifo_and_growth_witness :
    (validOps [CQOp.push 10, CQOp.push 20, CQOp.pop, CQOp.push 30, CQOp.pop] 0 = true ∧
      (runCQ [CQOp.push 10, CQOp.push 20, CQOp.pop, CQOp.push 30, CQOp.pop]
        (circular_queue_init Nat)).2 =
      (runModel [CQOp.push 10, CQOp.push 20, CQOp.pop, CQOp.push 30, CQOp.pop]
        ([] : List Nat)).2) ∧
    (CQInv ⟨8, 0, 7, fun i => i⟩ ∧
      cqNext (8 : Nat) 7 = 0 ∧
      (circular_queue_push (⟨8, 0, 7, fun i => i⟩ : circular_queue Nat) 99).dcapacity = 16) := by
  refine ⟨⟨by decide, ?_⟩, ⟨by decide, by decide, ?_⟩⟩
  · exact (circular_queue_fifo_and_growth.1 _ (by decide)).1
  · exact (circular_queue_fifo_and_growth.2 ⟨8, 0, 7, fun i => i⟩ 99
      ⟨by decide, by decide, by decide⟩ (by decide)).2.2.2.2.1

/-- C9: push preserves the structural invariant
`head < dcapacity ∧ tail < dcapacity ∧ 8 ≤ dcapacity`, pop preserves it
when called on a nonempty queue, and any valid operation sequence starting
from `circular_queue_init` keeps the invariant and never lets the size
exceed the capacity `dcapacity - 1`. -/
theorem circular_queue_invariant :
    (∀ (q : circular_queue Nat) (v : Nat), CQInv q → CQInv (circular_queue_push q v)) ∧
    (∀ q : circular_queue Nat, CQInv q → 0 < circular_queue_size q →
      CQInv (circular_queue_pop q).2) ∧
    (∀ ops : List (CQOp Nat), validOps ops 0 = true →
      CQInv (runCQ ops (circular_queue_init Nat)).1 ∧
      circular_queue_size (runCQ ops (circular_queue_init Nat)).1 ≤
        circular_queue_capacity (runCQ ops (circular_queue_init Nat)).1) := by
  refine ⟨fun q v hq => (push_spec q v hq).2,
    fun q hq hne => (pop_spec q hq hne).2, fun ops hv => ?_⟩
  obtain ⟨_, _, hinv⟩ := runCQ_simulates ops (circular_queue_init Nat) []
    (CQInv_init Nat) (cqList_init Nat) (by simpa using hv)
  exact ⟨hinv, size_le_capacity _ hinv⟩

/-- Witness for C9 at concrete inputs: a fresh queue satisfies the
invariant, pushing onto it preserves the invariant, and the sequence
`push 1, pop, push 2` is valid and ends within capacity. -/
theorem circular_queue_invariant_witness :
    (CQInv (circular_queue_init Nat) ∧
      CQInv (circular_queue_push (circular_queue_init Nat) 5)) ∧
    (0 < circular_queue_size (circular_queue_push (circular_queue_init Nat) 5) ∧
      CQInv (circular_queue_pop (circular_queue_push (circular_queue_init Nat) 5)).2) ∧
    (validOps [CQOp.push 1, CQOp.pop, CQOp.push 2] 0 = true ∧
      circular_queue_size (runCQ [CQOp.push 1, CQOp.pop, CQOp.push 2]
          (circular_queue_init Nat)).1 ≤
        circular_queue_capacity (runCQ [CQOp.push 1, CQOp.pop, CQOp.push 2]
          (circular_queue_init Nat)).1) := by
  refine ⟨⟨by decide, circular_queue_invariant.1 _ 5 (by decide)⟩,
    ⟨by decide, circular_queue_invariant.2.1 _ (by decide) (by decide)⟩,
    ⟨by decide, (circular_queue_invariant.2.2 _ (by decide)).2⟩⟩

/-! ## Thread pool (`src/4/thread_pool.c`)

The header `thread_pool.h` is not part of the sources; the ceilings and
the error codes it declares are modelled from the spec. -/

/-- Modelled from the spec: `MAX_TASKS`, the absolute ceiling on the ready
queue size, declared in the missing `thread_pool.h`; "implementation-defined
constant, at least 1024". -/
def TPOOL_MAX_TASKS : Nat := 1024

/-- Modelled from the spec: `MAX_THREADS`, the ceiling on a pool's worker
count, declared in the missing `thread_pool.h`; "implementation-defined
constant, at least 16". -/
def TPOOL_MAX_THREADS : Nat := 16

/-- Modelled from the spec: the result codes of the API, declared in the
missing `thread_pool.h` (`0` for success and the `TPOOL_ERR_*` codes). -/
inductive RC where
  | ok
  | invalid_argument
  | too_many_tasks
  | has_tasks
  | task_not_pushed
  | task_in_pool
  | invalid_repush
  | timeout
deriving DecidableEq, Repr

/-- `struct thread_pool` (the parts visible to the sequential model):
worker ceiling `tmax`, the task queue (holding task references of type
`α`), and the spawned/free worker counters. The mutex, condition variable
and the `pthread_t` array carry no sequential state. -/
structure thread_pool (α : Type) where
  tmax : Nat
  queue : circular_queue α
  spawned_count : Nat
  free_count : Nat

/-- `thread_pool_new`: validate `max_thread_count`, then build a pool with
a fresh queue and zero counters. -/
def thread_pool_new (α : Type) [Inhabited α] (max_thread_count : Int) :
    Except RC (thread_pool α) :=
  if max_thread_count ≤ 0 ∨ (TPOOL_MAX_THREADS : Int) < max_thread_count then
    .error .invalid_argument
  else
    .ok { tmax := max_thread_count.toNat
          queue := circular_queue_init α
          spawned_count := 0
          free_count := 0 }

/-- `thread_pool_thread_count`: returns `spawned_count`. -/
def thread_pool_thread_count (p : thread_pool α) : Nat := p.spawned_count

/-- `thread_pool_delete`: fails with `has_tasks` when
`queue size + (spawned_count - free_count)` is nonzero; the subtraction is
C `size_t` arithmetic, modelled with its wrap-around. -/
def thread_pool_delete (p : thread_pool α) : RC :=
  if circular_queue_size p.queue +
      (p.spawned_count + 2 ^ 64 - p.free_count) % 2 ^ 64 ≠ 0 then
    .has_tasks
  else
    .ok

/-- `thread_pool_push_task`, acting on the pool and on the task's state
word (the task itself is only stored by reference, modelled by the opaque
`t : α`). Transcribed branch by branch:
* full queue (`size ≥ TPOOL_MAX_TASKS`) → `too_many_tasks`, nothing else;
* otherwise CAS `CREATED→PUSHED`, else CAS `JOINED→PUSHED` (either success
  enqueues), else `invalid_repush`;
* still in the non-full branch — regardless of which of those three cases
  was taken — spawn a worker when `free_count == 0 ∧ spawned_count < tmax`.
Returns the result code, the new pool, and the new task state word. -/
def thread_pool_push_task (p : thread_pool α) [Inhabited α] (s : task_state) (t : α) :
    RC × thread_pool α × task_state :=
  if TPOOL_MAX_TASKS ≤ circular_queue_size p.queue then
    (.too_many_tasks, p, s)
  else
    let step : RC × circular_queue α × task_state :=
      match atomic_cex_state s .CREATED .PUSHED with
      | (true, s') => (.ok, circular_queue_push p.queue t, s')
      | (false, _) =>
        match atomic_cex_state s .JOINED .PUSHED with
        | (true, s') => (.ok, circular_queue_push p.queue t, s')
        | (false, _) => (.invalid_repush, p.queue, s)
    let p' : thread_pool α := { p with queue := step.2.1 }
    let p'' : thread_pool α :=
      if p'.free_count = 0 ∧ p'.spawned_count < p'.tmax then
        { p' with spawned_count := p'.spawned_count + 1 }
      else p'
    (step.1, p'', step.2.2)

/-! ## Tasks (`src/4/thread_pool.c`) -/

/-- `struct thread_task` over an opaque value domain `V` (C's `void *`):
function, argument, result slot (`none` while uninitialized), and the
atomic state word. -/
structure thread_task (V : Type) where
  function : V → V
  arg : V
  ret : Option V
  state : task_state

/-- `thread_task_new`: initialize function and argument, leave `ret`
uninitialized, publish `state = CREATED`. -/
def thread_task_new (function : V → V) (arg : V) : thread_task V :=
  { function := function, arg := arg, ret := none, state := .CREATED }

/-- `thread_task_delete`: succeeds (and frees) only in state `CREATED` or
`JOINED`; otherwise `task_in_pool`. -/
def thread_task_delete (t : thread_task V) : RC :=
  if t.state = .CREATED ∨ t.state = .JOINED then .ok else .task_in_pool

/-- The worker's pickup step (`thread_pool_worker` lines 161-162): CAS
`PUSHED→RUNNING`, else CAS `PUSHED_GHOST→RUNNING_GHOST`. -/
def worker_pickup (t : thread_task V) : thread_task V :=
  { t with state := applyCasChain [(.PUSHED, .RUNNING), (.PUSHED_GHOST, .RUNNING_GHOST)] t.state }

/-- The worker's execution step (`thread_pool_worker` line 166):
`task->ret = task->function(task->arg)`. -/
def worker_run (t : thread_task V) : thread_task V :=
  { t with ret := some (t.function t.arg) }

/-- The worker's completion step (`thread_pool_worker` lines 132-134): CAS
`RUNNING→COMPLETED`, else CAS `RUNNING_GHOST→JOINED`. -/
def worker_finish (t : thread_task V) : thread_task V :=
  { t with state := applyCasChain [(.RUNNING, .COMPLETED), (.RUNNING_GHOST, .JOINED)] t.state }

/-- `thread_task_join` in the sequential setting (no concurrent writer of
the state word during the call): `not_pushed` on `CREATED`; on `COMPLETED`
the `futexp_wait_for` returns at once and the CAS `COMPLETED→JOINED`
delivers the result; in any other state the wait never returns (`none`). -/
def thread_task_join (t : thread_task V) : Option (RC × thread_task V × Option V) :=
  if t.state = .CREATED then some (.task_not_pushed, t, none)
  else if t.state = .COMPLETED then some (.ok, { t with state := .JOINED }, t.ret)
  else none

/-! ## Claim theorems about the pool operations -/

theorem push_task_full (p : thread_pool α) [Inhabited α] (s : task_state) (t : α)
    (h : TPOOL_MAX_TASKS ≤ circular_queue_size p.queue) :
    thread_pool_push_task p s t = (.too_many_tasks, p, s) := by
  unfold thread_pool_push_task
  rw [if_pos h]

theorem push_task_nonfull (p : thread_pool α) [Inhabited α] (s : task_state) (t : α)
    (hsz : circular_queue_size p.queue < TPOOL_MAX_TASKS) :
    thread_pool_push_task p s t =
      (let step : RC × circular_queue α × task_state :=
        if s = .CREATED ∨ s = .JOINED then (.ok, circular_queue_push p.queue t, .PUSHED)
        else (.invalid_repush, p.queue, s)
       (step.1,
        if p.free_count = 0 ∧ p.spawned_count < p.tmax then
          { p with queue := step.2.1, spawned_count := p.spawned_count + 1 }
        else { p with queue := step.2.1 },
        step.2.2)) := by
  unfold thread_pool_push_task
  rw [if_neg (by omega)]
  cases s <;> simp [atomic_cex_state]

/-- C6: when the queue is below `MAX_TASKS`, `thread_pool_push_task`
returns ok and enqueues the task exactly when the task's state is
`CREATED` or `JOINED` (transitioning it to `PUSHED`); in any other state
it returns `invalid_repush` and leaves both the queue and the state word
unchanged. -/
theorem push_task_repush_rule (p : thread_pool Nat) (s : task_state) (t : Nat)
    (hsz : circular_queue_size p.queue < TPOOL_MAX_TASKS) :
    ((s = .CREATED ∨ s = .JOINED) →
      (thread_pool_push_task p s t).1 = .ok ∧
      (thread_pool_push_task p s t).2.1.queue = circular_queue_push p.queue t ∧
      (thread_pool_push_task p s t).2.2 = .PUSHED) ∧
    (¬(s = .CREATED ∨ s = .JOINED) →
      (thread_pool_push_task p s t).1 = .invalid_repush ∧
      (thread_pool_push_task p s t).2.1.queue = p.queue ∧
      (thread_pool_push_task p s t).2.2 = s) := by
  rw [push_task_nonfull p s t hsz]
  by_cases hs : s = .CREATED ∨ s = .JOINED
  · rw [if_pos hs]
    refine ⟨fun _ => ⟨rfl, ?_, rfl⟩, fun h => absurd hs h⟩
    dsimp only
    split <;> rfl
  · rw [if_neg hs]
    refine ⟨fun h => absurd h hs, fun _ => ⟨rfl, ?_, rfl⟩⟩
    dsimp only
    split <;> rfl

/-- Witness for C6: on a fresh pool (queue size 0 < `MAX_TASKS`), pushing
a `CREATED` task succeeds and pushing a `RUNNING` task is rejected. -/
theorem push_task_repush_rule_witness :
    (circular_queue_size (circular_queue_init Nat) < TPOOL_MAX_TASKS ∧
      (thread_pool_push_task ⟨1, circular_queue_init Nat, 0, 0⟩ .CREATED 7).1 = .ok) ∧
    ((thread_pool_push_task ⟨1, circular_queue_init Nat, 0, 0⟩ .RUNNING 7).1 =
      .invalid_repush) :=
  ⟨⟨by decide,
    ((push_task_repush_rule ⟨1, circular_queue_init Nat, 0, 0⟩ .CREATED 7
      (by decide)).1 (Or.inl rfl)).1⟩,
   ((push_task_repush_rule ⟨1, circular_queue_init Nat, 0, 0⟩ .RUNNING 7
      (by decide)).2 (by decide)).1⟩

/-- C3 (amended): when `thread_pool_push_task` returns `too_many_tasks`
nothing at all is changed; when it returns `invalid_repush` the task is
not enqueued, the task's state word, the queue, `free_count` and `tmax`
are unchanged — but, unlike the claim as stated, a worker IS spawned
(`spawned_count` is incremented) whenever `free_count == 0` and
`spawned_count < tmax`, because the spawn check in the source is not
conditioned on the push having succeeded. -/
theorem push_task_error_effects (p : thread_pool Nat) (s : task_state) (t : Nat) :
    (TPOOL_MAX_TASKS ≤ circular_queue_size p.queue →
      thread_pool_push_task p s t = (.too_many_tasks, p, s)) ∧
    (circular_queue_size p.queue < TPOOL_MAX_TASKS →
      ¬(s = .CREATED ∨ s = .JOINED) →
      (thread_pool_push_task p s t).1 = .invalid_repush ∧
      (thread_pool_push_task p s t).2.1.queue = p.queue ∧
      (thread_pool_push_task p s t).2.1.free_count = p.free_count ∧
      (thread_pool_push_task p s t).2.1.tmax = p.tmax ∧
      (thread_pool_push_task p s t).2.2 = s ∧
      (thread_pool_push_task p s t).2.1.spawned_count =
        (if p.free_count = 0 ∧ p.spawned_count < p.tmax then p.spawned_count + 1
         else p.spawned_count)) := by
  constructor
  · intro h
    exact push_task_full p s t h
  · intro hsz hs
    rw [push_task_nonfull p s t hsz, if_neg hs]
    dsimp only
    by_cases hw : p.free_count = 0 ∧ p.spawned_count < p.tmax
    · rw [if_pos hw]
      exact ⟨rfl, rfl, rfl, rfl, rfl, (if_pos hw).symm⟩
    · rw [if_neg hw]
      exact ⟨rfl, rfl, rfl, rfl, rfl, (if_neg hw).symm⟩

/-- Counterexample to C3 as stated: on a pool with `free_count = 0`,
`spawned_count = 0 < tmax = 1`, pushing a `RUNNING` task returns the error
`invalid_repush`, yet `spawned_count` changes from 0 to 1 — a worker
thread is spawned on an error return. -/
theorem push_task_error_spawns_worker_cex :
    (thread_pool_push_task ⟨1, circular_queue_init Nat, 0, 0⟩ .RUNNING 0).1 =
      .invalid_repush ∧
    (thread_pool_push_task ⟨1, circular_queue_init Nat, 0, 0⟩ .RUNNING 0).2.1.spawned_count
      = 1 ∧
    (⟨1, circular_queue_init Nat, 0, 0⟩ : thread_pool Nat).spawned_count = 0 := by
  refine ⟨by decide, by decide, rfl⟩

/-- Witness for C3 (amended): both error branches at concrete inputs — a
queue of 1500 ≥ `MAX_TASKS` elements is refused with no change at all, and
the `invalid_repush` case on a pool with a free worker leaves
`spawned_count` alone. -/
theorem push_task_error_effects_witness :
    (TPOOL_MAX_TASKS ≤ circular_queue_size (⟨2048, 0, 1500, fun _ => 0⟩ : circular_queue Nat) ∧
      thread_pool_push_task ⟨1, (⟨2048, 0, 1500, fun _ => 0⟩ : circular_queue Nat), 1, 1⟩
          .RUNNING 7 =
        (.too_many_tasks, ⟨1, ⟨2048, 0, 1500, fun _ => 0⟩, 1, 1⟩, .RUNNING)) ∧
    (circular_queue_size (circular_queue_init Nat) < TPOOL_MAX_TASKS ∧
      (thread_pool_push_task ⟨1, circular_queue_init Nat, 1, 1⟩ .RUNNING 7).1 =
        .invalid_repush ∧
      (thread_pool_push_task ⟨1, circular_queue_init Nat, 1, 1⟩ .RUNNING 7).2.1.spawned_count
        = 1) :=
  ⟨⟨by decide,
    (push_task_error_effects ⟨1, ⟨2048, 0, 1500, fun _ => 0⟩, 1, 1⟩ .RUNNING 7).1
      (by decide)⟩,
   ⟨by decide,
    ((push_task_error_effects ⟨1, circular_queue_init Nat, 1, 1⟩ .RUNNING 7).2
      (by decide) (by decide)).1,
    by decide⟩⟩

/-! ## C4: pushing fresh tasks until refusal -/

/-- The pool after `n` pushes of fresh (`CREATED`) tasks. -/
def pushFreshN (p : thread_pool Nat) : Nat → thread_pool Nat
  | 0 => p
  | n + 1 => (thread_pool_push_task (pushFreshN p n) .CREATED n).2.1

/-- The result code of the `n`-th (0-based) push of a fresh task. -/
def nthPushResult (p : thread_pool Nat) (n : Nat) : RC :=
  (thread_pool_push_task (pushFreshN p n) .CREATED n).1

theorem pushFreshN_size (p : thread_pool Nat) (hq : CQInv p.queue)
    (h0 : circular_queue_size p.queue = 0) :
    ∀ n, n ≤ TPOOL_MAX_TASKS →
      CQInv (pushFreshN p n).queue ∧ circular_queue_size (pushFreshN p n).queue = n := by
  intro n
  induction n with
  | zero => exact fun _ => ⟨hq, h0⟩
  | succ n ih =>
    intro hn
    obtain ⟨hqi, hsz⟩ := ih (by omega)
    have hlt : circular_queue_size (pushFreshN p n).queue < TPOOL_MAX_TASKS := by omega
    have hred := push_task_nonfull (pushFreshN p n) .CREATED n hlt
    have hqueue : (pushFreshN p (n + 1)).queue =
        circular_queue_push (pushFreshN p n).queue n := by
      show (thread_pool_push_task (pushFreshN p n) .CREATED n).2.1.queue = _
      rw [hred]
      dsimp only
      rw [if_pos (Or.inl rfl)]
      split <;> rfl
    rw [hqueue]
    exact ⟨(push_spec _ n hqi).2, by rw [push_size _ n hqi, hsz]⟩

theorem nthPushResult_ok (p : thread_pool Nat) (hq : CQInv p.queue)
    (h0 : circular_queue_size p.queue = 0) :
    ∀ n < TPOOL_MAX_TASKS, nthPushResult p n = .ok := by
  intro n hn
  obtain ⟨hqi, hsz⟩ := pushFreshN_size p hq h0 n (by omega)
  unfold nthPushResult
  rw [push_task_nonfull (pushFreshN p n) .CREATED n (by omega)]
  dsimp only
  rw [if_pos (Or.inl rfl)]

theorem nthPushResult_refused (p : thread_pool Nat) (hq : CQInv p.queue)
    (h0 : circular_queue_size p.queue = 0) :
    ∀ n, n = TPOOL_MAX_TASKS → nthPushResult p n = .too_many_tasks := by
  intro n hn
  obtain ⟨hqi, hsz⟩ := pushFreshN_size p hq h0 n (by omega)
  unfold nthPushResult
  rw [push_task_full (pushFreshN p n) .CREATED n (by omega)]

/-- C4 (amended): with a pool of one worker busy on a task that never
returns (so the queue starts empty: the running task is NOT an element of
the queue), repeatedly pushing fresh tasks succeeds exactly `MAX_TASKS`
times — not `MAX_TASKS − 1` — before the first push returns
`too_many_tasks`; the push indeed is refused exactly once the queue size
reaches `MAX_TASKS`. -/
theorem push_until_refusal_count (p : thread_pool Nat)
    (hq : CQInv p.queue) (h0 : circular_queue_size p.queue = 0)
    (_hbusy : p.tmax = 1 ∧ p.spawned_count = 1 ∧ p.free_count = 0) :
    (∀ n < TPOOL_MAX_TASKS, nthPushResult p n = .ok) ∧
    nthPushResult p TPOOL_MAX_TASKS = .too_many_tasks ∧
    circular_queue_size (pushFreshN p TPOOL_MAX_TASKS).queue = TPOOL_MAX_TASKS :=
  ⟨nthPushResult_ok p hq h0, nthPushResult_refused p hq h0 TPOOL_MAX_TASKS rfl,
   (pushFreshN_size p hq h0 TPOOL_MAX_TASKS (le_refl _)).2⟩

/-- Witness for C4 (amended) at a concrete pool: a busy one-worker pool
with a fresh queue; its 0-th push succeeds and the `MAX_TASKS`-th push is
refused. -/
theorem push_until_refusal_count_witness :
    CQInv (circular_queue_init Nat) ∧
    circular_queue_size (circular_queue_init Nat) = 0 ∧
    nthPushResult ⟨1, circular_queue_init Nat, 1, 0⟩ 0 = .ok ∧
    nthPushResult ⟨1, circular_queue_init Nat, 1, 0⟩ TPOOL_MAX_TASKS = .too_many_tasks :=
  ⟨by decide, by decide,
   (push_until_refusal_count ⟨1, circular_queue_init Nat, 1, 0⟩ (by decide) (by decide)
     ⟨rfl, rfl, rfl⟩).1 0 (by decide),
   (push_until_refusal_count ⟨1, circular_queue_init Nat, 1, 0⟩ (by decide) (by decide)
     ⟨rfl, rfl, rfl⟩).2.1⟩

/-- Counterexample to C4 as stated: the claim predicts only
`MAX_TASKS − 1` successful pushes, i.e. that push number `MAX_TASKS`
(0-based index `MAX_TASKS − 1 = 1023`) already returns `too_many_tasks`;
on the busy one-worker pool that push in fact returns ok. -/
theorem push_until_refusal_count_cex :
    nthPushResult ⟨1, circular_queue_init Nat, 1, 0⟩ (TPOOL_MAX_TASKS - 1) = .ok ∧
    RC.ok ≠ RC.too_many_tasks :=
  ⟨nthPushResult_ok ⟨1, circular_queue_init Nat, 1, 0⟩ (by decide) (by decide)
    (TPOOL_MAX_TASKS - 1) (by decide), by decide⟩

/-! ## C2: create → push → run → join → delete round trip -/

/-- C2: for every function `f` and argument `a`: pushing the fresh task
`task_new(f, a)` into a non-full pool succeeds and moves its state word to
`PUSHED`; after the worker picks it up, runs it and completes it, the task
is `⟨f, a, some (f a), COMPLETED⟩`; `join` then returns ok delivering
exactly `f a` and leaves the task `JOINED`, after which `task_delete`
returns ok — while `task_delete` called at any point between the push and
the join (states `PUSHED`, `RUNNING`, `COMPLETED`) returns `task_in_pool`. -/
theorem task_roundtrip {V : Type} (f : V → V) (a : V)
    (p : thread_pool Nat) (t : Nat)
    (hsz : circular_queue_size p.queue < TPOOL_MAX_TASKS) :
    (thread_pool_push_task p (thread_task_new f a).state t).1 = .ok ∧
    (thread_pool_push_task p (thread_task_new f a).state t).2.2 = .PUSHED ∧
    worker_finish (worker_run (worker_pickup
        { thread_task_new f a with
            state := (thread_pool_push_task p (thread_task_new f a).state t).2.2 })) =
      ⟨f, a, some (f a), .COMPLETED⟩ ∧
    thread_task_join (⟨f, a, some (f a), .COMPLETED⟩ : thread_task V) =
      some (.ok, ⟨f, a, some (f a), .JOINED⟩, some (f a)) ∧
    thread_task_delete (⟨f, a, some (f a), .JOINED⟩ : thread_task V) = .ok ∧
    thread_task_delete (⟨f, a, none, .PUSHED⟩ : thread_task V) = .task_in_pool ∧
    thread_task_delete (⟨f, a, some (f a), .RUNNING⟩ : thread_task V) = .task_in_pool ∧
    thread_task_delete (⟨f, a, some (f a), .COMPLETED⟩ : thread_task V) = .task_in_pool := by
  have h2 : (thread_pool_push_task p (thread_task_new f a).state t).2.2 = .PUSHED := by
    rw [show (thread_task_new f a).state = .CREATED from rfl,
      push_task_nonfull p .CREATED t hsz]
    dsimp only
    rw [if_pos (Or.inl rfl)]
  have h1 : (thread_pool_push_task p (thread_task_new f a).state t).1 = .ok := by
    rw [show (thread_task_new f a).state = .CREATED from rfl,
      push_task_nonfull p .CREATED t hsz]
    dsimp only
    rw [if_pos (Or.inl rfl)]
  refine ⟨h1, h2, ?_, rfl, rfl, rfl, rfl, rfl⟩
  rw [h2]
  rfl

/-- Witness for C2 at `f = Nat.succ`, `a = 41`, a fresh pool: the push
succeeds, the completed task joins to `42`, and deleting before the join
is refused. -/
theorem task_roundtrip_witness :
    circular_queue_size (circular_queue_init Nat) < TPOOL_MAX_TASKS ∧
    thread_task_join (⟨Nat.succ, 41, some (Nat.succ 41), .COMPLETED⟩ : thread_task Nat) =
      some (.ok, ⟨Nat.succ, 41, some (Nat.succ 41), .JOINED⟩, some (Nat.succ 41)) ∧
    thread_task_delete (⟨Nat.succ, 41, some (Nat.succ 41), .JOINED⟩ : thread_task Nat) =
      .ok ∧
    thread_task_delete (⟨Nat.succ, 41, none, .PUSHED⟩ : thread_task Nat) = .task_in_pool :=
  ⟨by decide,
   (task_roundtrip Nat.succ 41 ⟨1, circular_queue_init Nat, 0, 0⟩ 0 (by decide)).2.2.2.1,
   (task_roundtrip Nat.succ 41 ⟨1, circular_queue_init Nat, 0, 0⟩ 0 (by decide)).2.2.2.2.1,
   (task_roundtrip Nat.succ 41 ⟨1, circular_queue_init Nat, 0, 0⟩ 0
     (by decide)).2.2.2.2.2.2.1⟩

/-! ## C10: fresh pool -/

/-- C10: immediately after a successful `thread_pool_new` and before any
push, `thread_pool_thread_count` returns 0 (no worker threads are spawned
at construction), the queue is empty, `spawned_count = free_count = 0`,
and `thread_pool_delete` returns ok. -/
theorem fresh_pool_properties (m : Int) (p : thread_pool Nat)
    (h : thread_pool_new Nat m = .ok p) :
    thread_pool_thread_count p = 0 ∧
    p.spawned_count = 0 ∧ p.free_count = 0 ∧
    circular_queue_size p.queue = 0 ∧
    thread_pool_delete p = .ok := by
  unfold thread_pool_new at h
  split at h
  · cases h
  · cases h
    refine ⟨rfl, rfl, rfl, ?_, ?_⟩
    · show circular_queue_size (circular_queue_init Nat) = 0
      decide
    · show thread_pool_delete ⟨_, circular_queue_init Nat, 0, 0⟩ = .ok
      unfold thread_pool_delete
      dsimp only
      rw [if_neg (by decide)]

/-- Witness for C10: `thread_pool_new` with `max_thread_count = 1`
succeeds, and the resulting pool has no threads and deletes fine. -/
theorem fresh_pool_properties_witness :
    thread_pool_new Nat 1 = .ok ⟨1, circular_queue_init Nat, 0, 0⟩ ∧
    thread_pool_thread_count (⟨1, circular_queue_init Nat, 0, 0⟩ : thread_pool Nat) = 0 ∧
    thread_pool_delete (⟨1, circular_queue_init Nat, 0, 0⟩ : thread_pool Nat) = .ok := by
  refine ⟨rfl, ?_, ?_⟩
  · exact (fresh_pool_properties 1 ⟨1, circular_queue_init Nat, 0, 0⟩ rfl).1
  · exact (fresh_pool_properties 1 ⟨1, circular_queue_init Nat, 0, 0⟩ rfl).2.2.2.2

/-! ## Futex helpers (`src/4/futex.c`) -/

/-- `struct timespec` (`time_t tv_sec; long tv_nsec`). -/
structure timespec where
  tv_sec : Int
  tv_nsec : Int
deriving DecidableEq, Repr

/-- A timespec value in nanoseconds. -/
def toNanos (t : timespec) : Int := t.tv_sec * 1000000000 + t.tv_nsec

/-- `timespec_diff` from `futex.c`: componentwise subtraction with a
nanosecond borrow. The boolean is the `underflow` out-parameter (which the
caller initializes to false): the source sets it exactly when the borrow
happens while the seconds difference is 0 — before decrementing it. -/
def timespec_diff (a b : timespec) : timespec × Bool :=
  let s := a.tv_sec - b.tv_sec
  let n := a.tv_nsec - b.tv_nsec
  if n < 0 then ({ tv_sec := s - 1, tv_nsec := n + 1000000000 }, decide (s = 0))
  else ({ tv_sec := s, tv_nsec := n }, false)

/-- The remaining-time recomputation in `futexp_timed_wait_for` (line 66):
`timespec_diff(*timeout, timespec_diff(now, start, NULL), &underflow)`. -/
def remaining_after (timeout now start : timespec) : timespec × Bool :=
  timespec_diff timeout (timespec_diff now start).1

/-- The nanosecond field stays in `[0, 10^9)` and the difference is exact
in nanoseconds, for in-range inputs. -/
theorem timespec_diff_exact (a b : timespec)
    (ha : 0 ≤ a.tv_nsec ∧ a.tv_nsec < 1000000000)
    (hb : 0 ≤ b.tv_nsec ∧ b.tv_nsec < 1000000000) :
    toNanos (timespec_diff a b).1 = toNanos a - toNanos b ∧
    0 ≤ (timespec_diff a b).1.tv_nsec ∧ (timespec_diff a b).1.tv_nsec < 1000000000 := by
  unfold timespec_diff toNanos
  dsimp only
  split <;> (refine ⟨?_, ?_, ?_⟩ <;> dsimp only <;> nlinarith [ha.1, ha.2, hb.1, hb.2])

/-- The half of C5 that does hold: while the elapsed time is still below
the timeout, the recomputed remaining time is exactly
`timeout − elapsed`, non-negative, and the underflow flag is not set. -/
theorem remaining_after_exact (tmo now start : timespec)
    (htmo : 0 ≤ tmo.tv_nsec ∧ tmo.tv_nsec < 1000000000)
    (hnow : 0 ≤ now.tv_nsec ∧ now.tv_nsec < 1000000000)
    (hstart : 0 ≤ start.tv_nsec ∧ start.tv_nsec < 1000000000)
    (hlt : toNanos (timespec_diff now start).1 < toNanos tmo) :
    (remaining_after tmo now start).2 = false ∧
    toNanos (remaining_after tmo now start).1 =
      toNanos tmo - (toNanos now - toNanos start) ∧
    0 ≤ toNanos (remaining_after tmo now start).1 := by
  obtain ⟨hex, hn0, hn1⟩ := timespec_diff_exact now start hnow hstart
  obtain ⟨hex2, _, _⟩ :=
    timespec_diff_exact tmo (timespec_diff now start).1 htmo ⟨hn0, hn1⟩
  unfold remaining_after
  refine ⟨?_, by rw [hex2, hex], by rw [hex2]; omega⟩
  set e := (timespec_diff now start).1 with he
  unfold timespec_diff
  dsimp only
  split
  · rename_i hneg
    apply decide_eq_false
    intro hzero
    unfold toNanos at hlt
    omega
  · rfl

/-- C5 fails on the code: with `timeout = 0.9 s` and one second elapsed
(`start = {0,0}`, `now = {1,0}`), the elapsed monotonic time exceeds the
timeout, yet the recomputation leaves the underflow flag false and
produces the (invalid) negative remaining time `{-1, 900000000}` instead
of reporting expiry — the `tv_sec` borrow path only flags underflow when
the seconds difference is exactly zero. -/
theorem remaining_after_underflow_missed :
    toNanos (⟨0, 900000000⟩ : timespec) <
      toNanos (timespec_diff ⟨1, 0⟩ ⟨0, 0⟩).1 ∧
    remaining_after ⟨0, 900000000⟩ ⟨1, 0⟩ ⟨0, 0⟩ = (⟨-1, 900000000⟩, false) ∧
    toNanos (remaining_after ⟨0, 900000000⟩ ⟨1, 0⟩ ⟨0, 0⟩).1 < 0 := by
  refine ⟨by decide, by decide, by decide⟩

/-- The futex syscall outcome of one blocking attempt, as the loop in
`futexp_timed_wait_for` classifies it: `woken` covers a return of 0,
`EAGAIN` and `EINTR` (all of which continue the loop); `timedOut` covers
the error return the loop propagates (`ETIMEDOUT`). -/
inductive FutexRes where
  | woken
  | timedOut
deriving DecidableEq, Repr

/-- Result of `futexp_timed_wait_for`: `ok` (0), `timedOut` (-1 with
`ETIMEDOUT`), or `blocked` — the call has not returned within the
modelled trace. -/
inductive WaitOutcome where
  | ok
  | timedOut
  | blocked
deriving DecidableEq, Repr

/-- The per-iteration environment of the wait loop: the value the atomic
load reads, the `clock_gettime(CLOCK_MONOTONIC)` reading, and how the
futex syscall of this iteration ends. -/
structure WaitObs (α : Type) where
  cur : α
  now : timespec
  res : FutexRes

/-- `futexp_timed_wait_for`, driven by a finite trace of per-iteration
environments. Transcribed loop order: first the atomic load is compared
against the wanted value (immediate success — no clock is consulted);
only then, when a timeout is given, the remaining time is recomputed and
the underflow flag checked; then the syscall blocks. -/
def futexp_timed_wait_for [DecidableEq α] (wait_for : α) (timeout : Option timespec)
    (start : timespec) : List (WaitObs α) → WaitOutcome
  | [] => .blocked
  | o :: rest =>
    if o.cur = wait_for then .ok
    else
      match timeout with
      | some tmo =>
        match remaining_after tmo o.now start with
        | (_, true) => .timedOut
        | (_, false) =>
          match o.res with
          | .woken => futexp_timed_wait_for wait_for timeout start rest
          | .timedOut => .timedOut
      | none =>
        match o.res with
        | .woken => futexp_timed_wait_for wait_for timeout start rest
        | .timedOut => .timedOut

/-- The `double timeout` argument of `thread_task_timed_join`: a finite
value (modelled as a rational) or the unbounded sentinel (`INFINITY`;
`DBL_MAX` is likewise mapped to the unbounded wait). -/
inductive Dbl where
  | finite (q : ℚ)
  | inf

/-- The timeout conversion in `thread_task_timed_join` (lines 381-393):
`INFINITY`/`DBL_MAX` pass `NULL`; a positive finite timeout is split into
whole seconds and nanoseconds; zero and negative timeouts leave the
zero-initialized `{0, 0}` timespec. -/
def timeout_to_timespec : Dbl → Option timespec
  | .inf => none
  | .finite q =>
    if 0 < q then some { tv_sec := ⌊q⌋, tv_nsec := ⌊(q - ⌊q⌋) * 1000000000⌋ }
    else some { tv_sec := 0, tv_nsec := 0 }

/-- `thread_task_timed_join` in the sequential setting: the state word
does not change during the call, so every atomic load in the wait loop
reads `t.state`; `env` supplies the clock readings and syscall outcomes
of the loop iterations. -/
def thread_task_timed_join (t : thread_task V) (timeout : Dbl) (start : timespec)
    (env : List (timespec × FutexRes)) : Option (RC × thread_task V × Option V) :=
  if t.state = .CREATED then some (.task_not_pushed, t, none)
  else
    match futexp_timed_wait_for task_state.COMPLETED (timeout_to_timespec timeout) start
        (env.map (fun e => ⟨t.state, e.1, e.2⟩)) with
    | .ok => some (.ok, { t with state := .JOINED }, t.ret)
    | .timedOut => some (.timeout, t, none)
    | .blocked => none

/-- The wait loop returns ok immediately — before any deadline check —
whenever the first value it reads is already the wanted one. -/
theorem futexp_wait_first_hit [DecidableEq α] (wait_for : α) (timeout : Option timespec)
    (start : timespec) (o : WaitObs α) (rest : List (WaitObs α)) (h : o.cur = wait_for) :
    futexp_timed_wait_for wait_for timeout start (o :: rest) = .ok := by
  unfold futexp_timed_wait_for
  rw [if_pos h]

/-- C8: a task whose state is `COMPLETED` at the call always makes
`thread_task_timed_join` return ok and deliver the stored result, for
every timeout value — zero and negative included — because the wait
primitive checks the state word against the wanted value before it ever
consults the deadline. -/
theorem timed_join_completed_ok {V : Type} (t : thread_task V) (timeout : Dbl)
    (start : timespec) (env : List (timespec × FutexRes))
    (hst : t.state = .COMPLETED) (henv : env ≠ []) :
    thread_task_timed_join t timeout start env =
      some (.ok, { t with state := .JOINED }, t.ret) := by
  obtain ⟨e, rest, rfl⟩ := List.exists_cons_of_ne_nil henv
  unfold thread_task_timed_join
  rw [if_neg (by rw [hst]; exact fun h => nomatch h)]
  rw [List.map_cons, futexp_wait_first_hit _ _ _ _ _ hst]

/-- Witness for C8: a concrete completed task joined with a zero timeout
(and with a negative timeout) returns ok and its result `42`. -/
theorem timed_join_completed_ok_witness :
    (⟨Nat.succ, 41, some 42, .COMPLETED⟩ : thread_task Nat).state = .COMPLETED ∧
    ([(⟨0, 0⟩, FutexRes.woken)] : List (timespec × FutexRes)) ≠ [] ∧
    thread_task_timed_join (⟨Nat.succ, 41, some 42, .COMPLETED⟩ : thread_task Nat)
        (.finite 0) ⟨0, 0⟩ [(⟨0, 0⟩, FutexRes.woken)] =
      some (.ok, ⟨Nat.succ, 41, some 42, .JOINED⟩, some 42) ∧
    thread_task_timed_join (⟨Nat.succ, 41, some 42, .COMPLETED⟩ : thread_task Nat)
        (.finite (-1)) ⟨0, 0⟩ [(⟨0, 0⟩, FutexRes.woken)] =
      some (.ok, ⟨Nat.succ, 41, some 42, .JOINED⟩, some 42) :=
  ⟨rfl, by simp,
   timed_join_completed_ok ⟨Nat.succ, 41, some 42, .COMPLETED⟩ (.finite 0) ⟨0, 0⟩
     [(⟨0, 0⟩, FutexRes.woken)] rfl (by simp),
   timed_join_completed_ok ⟨Nat.succ, 41, some 42, .COMPLETED⟩ (.finite (-1)) ⟨0, 0⟩
     [(⟨0, 0⟩, FutexRes.woken)] rfl (by simp)⟩

end Sysprog
